import Mathlib

set_option maxHeartbeats 1000000

/-!
Shallow embedding of the virglrenderer local-transport layer:
`src/src/proxy/proxy_socket.c` and `src/server/render_socket.c`.

Modelling conventions:
- byte buffers are `List Nat`, file descriptors are `Nat`;
- each underlying syscall result is an event in a schedule list
  (`SockEv` for byte-stream sockets, `DgEv` for datagram sockets,
  `PollEv` for `poll`); `eintr` covers both `EINTR` and `EAGAIN`,
  exactly as the C source treats them identically;
- both files are compiled in two variants by `#ifdef __APPLE__`:
  the non-APPLE (native `SOCK_SEQPACKET` framing) variant of a function
  is embedded under the C function's name, the APPLE (`SOCK_STREAM`
  with an explicit 8-byte header) variant under the same name with the
  suffix `_stream`;
- a C `assert(...)` is a caller-contract abort and is modelled as
  `none` (the operation does not proceed and transmits nothing);
- `render_socket.c` duplicates several helpers of `proxy_socket.c`
  verbatim; those are embedded once and the render-side name is a
  definitional alias.
-/

/-- Socket-type constant `SOCK_STREAM` (value 1 on Linux and macOS). -/
def SOCK_STREAM : Nat := 1

/-- Socket-type constant `SOCK_SEQPACKET` (value 5 on Linux and macOS). -/
def SOCK_SEQPACKET : Nat := 5

/-- Fixed descriptor cap `PROXY_SOCKET_MAX_FD_COUNT` from proxy_socket.c. -/
def PROXY_SOCKET_MAX_FD_COUNT : Nat := 8

/-- Fixed descriptor cap `RENDER_SOCKET_MAX_FD_COUNT` from render_socket.c. -/
def RENDER_SOCKET_MAX_FD_COUNT : Nat := 8

/-- One underlying syscall result on a byte-stream (`SOCK_STREAM`) socket:
a signal interrupt / would-block condition (`EINTR`/`EAGAIN`), a hard
errno, or a successful transfer. `chunk k fds trunc` means: the kernel
moved up to `k` bytes (clamped by the request and, on the receive side,
by the bytes available in the stream), delivered ancillary descriptors
`fds` (visible only when a control buffer was supplied), and reported
`MSG_TRUNC`/`MSG_CTRUNC` iff `trunc`. -/
inductive SockEv where
  | eintr : SockEv
  | err : SockEv
  | chunk : Nat → List Nat → Bool → SockEv
deriving DecidableEq

/-- One underlying `recvmsg` result on a datagram-preserving
(`SOCK_SEQPACKET`) socket: the event carries the full post-kernel result
of the call — the datagram bytes actually placed in the caller's iov,
the descriptors placed in the control buffer, and the
`MSG_TRUNC`/`MSG_CTRUNC` flags. `dgram [] _ _` is a zero-byte result,
i.e. the peer closed the connection. -/
inductive DgEv where
  | eintr : DgEv
  | err : DgEv
  | dgram : List Nat → List Nat → Bool → DgEv
deriving DecidableEq

/-- One underlying `poll` result: interrupt, hard error, timeout
(returns 0), or a revents bitmask. -/
inductive PollEv where
  | eintr : PollEv
  | err : PollEv
  | timeout : PollEv
  | revents : Nat → PollEv
deriving DecidableEq

/-- Result of one `recvmsg` wrapper call: failure (with the list of
received descriptors the wrapper closed before failing) or success
(bytes received, descriptors received). -/
inductive RMsg where
  | fail : List Nat → RMsg
  | ok : List Nat → List Nat → RMsg
deriving DecidableEq

/-- Descriptors a recvmsg result closed. -/
def RMsg.closed : RMsg → List Nat
  | .fail c => c
  | .ok _ _ => []

/-- Result of one public receive operation: failure (with the
descriptors the transport closed before failing) or success with
`ok size data fds closed`: the reported size, the payload bytes placed
in the caller's buffer, the descriptors copied out to the caller, and
the descriptors the transport closed during the (successful) call. -/
inductive RcvRes where
  | fail : List Nat → RcvRes
  | ok : Nat → List Nat → List Nat → List Nat → RcvRes
deriving DecidableEq

/-- Descriptors a receive result closed. -/
def RcvRes.closed : RcvRes → List Nat
  | .fail c => c
  | .ok _ _ _ c => c

/-- Transcript entry for one successful underlying send call in stream
mode: how many payload bytes it moved and whether the descriptor
ancillary block was attached to it. -/
structure SendCall where
  len : Nat
  withFds : Bool
deriving DecidableEq

/-- A message as it sits on a datagram-preserving wire: payload plus
attached descriptors (`struct msghdr` with one iov and one
`SCM_RIGHTS` control block). -/
structure Dgram where
  data : List Nat
  fds : List Nat
deriving DecidableEq

/-- The 8-byte framing header `struct stream_msg_header` used by the
stream wire mode: `{ uint32_t size; uint32_t fd_count; }`. -/
structure stream_msg_header where
  size : Nat
  fd_count : Nat
deriving DecidableEq

/-- Little-endian 4-byte encoding of a `uint32_t`. -/
def u32le (x : Nat) : List Nat :=
  [x % 256, x / 256 % 256, x / 65536 % 256, x / 16777216 % 256]

/-- Little-endian 4-byte decoding of a `uint32_t`. -/
def le32 (b : List Nat) : Nat :=
  b.getD 0 0 + 256 * b.getD 1 0 + 65536 * b.getD 2 0 + 16777216 * b.getD 3 0

/-- Byte image of the 8-byte header as written to the stream. -/
def stream_msg_header.encode (h : stream_msg_header) : List Nat :=
  u32le h.size ++ u32le h.fd_count

/-- Header recovered from the first 8 stream bytes. -/
def stream_msg_header.decode (b : List Nat) : stream_msg_header :=
  ⟨le32 (b.take 4), le32 (b.drop 4)⟩

/-- proxy_socket.c `proxy_socket_read_all` (APPLE stream helper): loop
until exactly `n` bytes are read from the stream `s`. `EINTR`/`EAGAIN`
results are retried; a hard errno fails; a read that returns 0 bytes
(stream exhausted: peer closed) fails. Returns the bytes read, the rest
of the stream, and the rest of the schedule. -/
def proxy_socket_read_all : List SockEv → List Nat → Nat → Option (List Nat × List Nat × List SockEv)
  | sched, s, 0 => some ([], s, sched)
  | [], _, _ + 1 => none
  | .eintr :: evs, s, n + 1 => proxy_socket_read_all evs s (n + 1)
  | .err :: _, _, _ + 1 => none
  | .chunk k _ _ :: evs, s, n + 1 =>
    let d := min k (min (n + 1) s.length)
    if d = 0 then none
    else
      match proxy_socket_read_all evs (s.drop d) (n + 1 - d) with
      | none => none
      | some (bs, s2, sched2) => some (s.take d ++ bs, s2, sched2)

/-- render_socket.c `render_socket_read_all`; its C body is identical to
`proxy_socket_read_all`. -/
def render_socket_read_all : List SockEv → List Nat → Nat → Option (List Nat × List Nat × List SockEv) :=
  proxy_socket_read_all

/-- proxy_socket.c `proxy_socket_write_all` (APPLE stream helper): loop
until exactly `n` bytes are written. `EINTR`/`EAGAIN` results are
retried; a hard errno fails. Note the C body has no zero-result check
(unlike read_all): a 0-byte write just iterates. Returns the rest of
the schedule; on success exactly the `n` buffer bytes went out in
order. -/
def proxy_socket_write_all : List SockEv → Nat → Option (List SockEv)
  | sched, 0 => some sched
  | [], _ + 1 => none
  | .eintr :: evs, n + 1 => proxy_socket_write_all evs (n + 1)
  | .err :: _, _ + 1 => none
  | .chunk k _ _ :: evs, n + 1 => proxy_socket_write_all evs (n + 1 - min k (n + 1))

/-- render_socket.c `render_socket_write_all`; identical C body. -/
def render_socket_write_all : List SockEv → Nat → Option (List SockEv) :=
  proxy_socket_write_all

/-- proxy_socket.c `proxy_socket_recvmsg`, non-APPLE variant
(`SOCK_SEQPACKET`): retry on `EINTR`/`EAGAIN`; a zero-byte result is
EOF and fails; a `MSG_TRUNC`/`MSG_CTRUNC` result fails after closing
every received descriptor; a byte count different from the requested
`iovLen` fails after closing every received descriptor (exact-size
framing check); otherwise succeed. `control` records whether the caller
supplied a control buffer (`msg_control` non-null): without one,
`get_received_fds` sees no descriptors. -/
def proxy_socket_recvmsg (control : Bool) (iovLen : Nat) :
    List DgEv → Option (RMsg × List DgEv)
  | [] => none
  | .eintr :: evs => proxy_socket_recvmsg control iovLen evs
  | .err :: evs => some (.fail [], evs)
  | .dgram data fds trunc :: evs =>
    let gotFds := if control then fds else []
    if data.length = 0 then some (.fail [], evs)
    else if trunc then some (.fail gotFds, evs)
    else if data.length ≠ iovLen then some (.fail gotFds, evs)
    else some (.ok data gotFds, evs)

/-- render_socket.c `render_socket_recvmsg`, non-APPLE variant: same as
the proxy variant but with no exact-size check — any positive byte
count that is not truncated succeeds and is reported via `out_size`. -/
def render_socket_recvmsg (control : Bool) :
    List DgEv → Option (RMsg × List DgEv)
  | [] => none
  | .eintr :: evs => render_socket_recvmsg control evs
  | .err :: evs => some (.fail [], evs)
  | .dgram data fds trunc :: evs =>
    let gotFds := if control then fds else []
    if data.length = 0 then some (.fail [], evs)
    else if trunc then some (.fail gotFds, evs)
    else some (.ok data gotFds, evs)

/-- proxy_socket.c `proxy_socket_recvmsg`, APPLE variant, acting on a
`SOCK_STREAM` socket: the kernel hands over up to `min k n` of the
bytes still queued in the stream `s`; a zero-byte result (empty stream:
peer closed) fails; truncated control data fails after closing the
received descriptors; there is no exact-size check in this variant.
Returns the result, the rest of the stream and the rest of the
schedule. -/
def proxy_socket_recvmsg_stream (control : Bool) :
    List SockEv → List Nat → Nat → Option (RMsg × List Nat × List SockEv)
  | [], _, _ => none
  | .eintr :: evs, s, n => proxy_socket_recvmsg_stream control evs s n
  | .err :: evs, s, _ => some (.fail [], s, evs)
  | .chunk k fds trunc :: evs, s, n =>
    let d := min k (min n s.length)
    let gotFds := if control then fds else []
    if d = 0 then some (.fail [], s, evs)
    else if trunc then some (.fail gotFds, s.drop d, evs)
    else some (.ok (s.take d) gotFds, s.drop d, evs)

/-- render_socket.c `render_socket_recvmsg`, APPLE variant; identical
control flow to the proxy APPLE variant. -/
def render_socket_recvmsg_stream (control : Bool) :
    List SockEv → List Nat → Nat → Option (RMsg × List Nat × List SockEv) :=
  proxy_socket_recvmsg_stream control

/-- proxy_socket.c `proxy_socket_receive_reply_internal`, non-APPLE
variant: one `recvmsg` with `iov_len = size` and a control buffer iff
`maxFd ≠ 0` (with the asserts `data && size`,
`fds && max_fd_count <= PROXY_SOCKET_MAX_FD_COUNT` and
`received_fd_count <= max_fd_count` modelled as aborts). `copyFds`
records whether the caller passed a non-null `fds` array. -/
def proxy_socket_receive_reply_internal (sched : List DgEv)
    (size : Nat) (copyFds : Bool) (maxFd : Nat) : Option RcvRes :=
  if size = 0 then none
  else if maxFd ≠ 0 ∧ ¬(copyFds ∧ maxFd ≤ PROXY_SOCKET_MAX_FD_COUNT) then none
  else
    match proxy_socket_recvmsg (maxFd ≠ 0) size sched with
    | none => none
    | some (.fail c, _) => some (.fail c)
    | some (.ok data fds, _) =>
      if maxFd ≠ 0 then
        if maxFd < fds.length then none
        else some (.ok data.length data fds [])
      else some (.ok data.length data [] [])

/-- render_socket.c `render_socket_receive_request_internal`, non-APPLE
variant: one `recvmsg` with `iov_len = max_size`; the received size is
whatever the kernel delivered (no exact-size check on this side) and is
reported to the caller. -/
def render_socket_receive_request_internal (sched : List DgEv)
    (maxSize : Nat) (copyFds : Bool) (maxFd : Nat) : Option RcvRes :=
  if maxSize = 0 then none
  else if maxFd ≠ 0 ∧ ¬(copyFds ∧ maxFd ≤ RENDER_SOCKET_MAX_FD_COUNT) then none
  else
    match render_socket_recvmsg (maxFd ≠ 0) sched with
    | none => none
    | some (.fail c, _) => some (.fail c)
    | some (.ok data fds, _) =>
      if maxFd ≠ 0 then
        if maxFd < fds.length then none
        else some (.ok data.length data fds [])
      else some (.ok data.length data [] [])

/-- The payload loop shared by the APPLE variants of
`proxy_socket_receive_reply_internal` and
`render_socket_receive_request_internal`: keep calling `recvmsg` until
`size` bytes are accumulated; descriptors are expected only while the
control buffer is still armed (the first successful call), after which
the received count is clamped to `maxFd`, the clamped descriptors are
copied out (when the caller passed a non-null `fds` array) and the
control buffer is cleared for subsequent calls. Descriptors beyond the
clamp are dropped by the code without being closed. `fuel` bounds the
iteration count for the embedding and is irrelevant whenever it exceeds
the schedule length. -/
def proxy_socket_stream_recv_loop (maxFd : Nat) (copyFds : Bool) (size : Nat) :
    Nat → List SockEv → List Nat → Nat → List Nat → Bool → List Nat → Option RcvRes
  | 0, _, _, _, _, _, _ => none
  | fuel + 1, sched, s, total, acc, control, outFds =>
    if total < size then
      match proxy_socket_recvmsg_stream control sched s (size - total) with
      | none => none
      | some (.fail c, _, _) => some (.fail c)
      | some (.ok data fds, s2, sched2) =>
        if control then
          proxy_socket_stream_recv_loop maxFd copyFds size fuel sched2 s2
            (total + data.length) (acc ++ data) false (fds.take maxFd)
        else
          proxy_socket_stream_recv_loop maxFd copyFds size fuel sched2 s2
            (total + data.length) (acc ++ data) control outFds
    else some (.ok total acc (if copyFds then outFds else []) [])

/-- render_socket.c APPLE receive loop; identical C body. -/
def render_socket_stream_recv_loop (maxFd : Nat) (copyFds : Bool) (size : Nat) :
    Nat → List SockEv → List Nat → Nat → List Nat → Bool → List Nat → Option RcvRes :=
  proxy_socket_stream_recv_loop maxFd copyFds size

/-- proxy_socket.c `proxy_socket_receive_reply_internal`, APPLE variant:
read the 8-byte header with exact-size semantics, fail if the declared
size differs from the expected `size`, then loop `recvmsg` until `size`
bytes are accumulated; the control buffer is armed iff the header
declares descriptors and the caller asked for some. -/
def proxy_socket_receive_reply_internal_stream (fuel : Nat) (sched : List SockEv)
    (s : List Nat) (size : Nat) (copyFds : Bool) (maxFd : Nat) : Option RcvRes :=
  if size = 0 then none
  else
    match proxy_socket_read_all sched s 8 with
    | none => none
    | some (hb, s2, sched2) =>
      let hdr := stream_msg_header.decode hb
      if hdr.size ≠ size then some (.fail [])
      else
        proxy_socket_stream_recv_loop maxFd copyFds size fuel sched2 s2 0 []
          (hdr.fd_count != 0 && maxFd != 0) []

/-- render_socket.c `render_socket_receive_request_internal`, APPLE
variant: read the 8-byte header, reject a declared size larger than the
caller's buffer capacity `maxSize`, then loop `recvmsg` until the
header-declared size is accumulated. -/
def render_socket_receive_request_internal_stream (fuel : Nat) (sched : List SockEv)
    (s : List Nat) (maxSize : Nat) (copyFds : Bool) (maxFd : Nat) : Option RcvRes :=
  if maxSize = 0 then none
  else
    match render_socket_read_all sched s 8 with
    | none => none
    | some (hb, s2, sched2) =>
      let hdr := stream_msg_header.decode hb
      if maxSize < hdr.size then some (.fail [])
      else
        render_socket_stream_recv_loop maxFd copyFds hdr.size fuel sched2 s2 0 []
          (hdr.fd_count != 0 && maxFd != 0) []

/-- proxy_socket.c `proxy_socket_sendmsg`, non-APPLE variant: one
`sendmsg` of the whole message, retried on `EINTR`/`EAGAIN`; a byte
count different from the full size trips the no-partial-send assert
(`SOCK_SEQPACKET` cannot partially send). -/
def proxy_socket_sendmsg (size : Nat) : List SockEv → Option (List SockEv)
  | [] => none
  | .eintr :: evs => proxy_socket_sendmsg size evs
  | .err :: _ => none
  | .chunk k _ _ :: evs => if k = size then some evs else none

/-- render_socket.c `render_socket_sendmsg`, non-APPLE variant;
identical C body. -/
def render_socket_sendmsg (size : Nat) : List SockEv → Option (List SockEv) :=
  proxy_socket_sendmsg size

/-- proxy_socket.c `proxy_socket_sendmsg`, APPLE variant: loop partial
sends until the whole payload went out; the descriptor ancillary block
is attached only while the one-shot `fds_sent` flag is still false, and
the flag is raised after the first successful send (when a control
block exists). Returns the transcript of successful underlying sends
and the rest of the schedule. -/
def proxy_socket_sendmsg_stream (control : Bool) :
    List SockEv → Nat → Bool → Option (List SendCall × List SockEv)
  | sched, 0, _ => some ([], sched)
  | [], _ + 1, _ => none
  | .eintr :: evs, n + 1, fdsSent => proxy_socket_sendmsg_stream control evs (n + 1) fdsSent
  | .err :: _, _ + 1, _ => none
  | .chunk k _ _ :: evs, n + 1, fdsSent =>
    let attach := !fdsSent && control
    let d := min k (n + 1)
    match proxy_socket_sendmsg_stream control evs (n + 1 - d) (fdsSent || control) with
    | none => none
    | some (calls, rest) => some (⟨d, attach⟩ :: calls, rest)

/-- render_socket.c `render_socket_sendmsg`, APPLE variant; identical
C body. -/
def render_socket_sendmsg_stream (control : Bool) :
    List SockEv → Nat → Bool → Option (List SendCall × List SockEv) :=
  proxy_socket_sendmsg_stream control

/-- proxy_socket.c `proxy_socket_send_request_internal`, non-APPLE
variant: build the msghdr (control block present iff descriptors are
passed, with the `fd_count <= PROXY_SOCKET_MAX_FD_COUNT` assert) and
send the whole message as one datagram. The `assert(data && size)`
precondition rejects an empty payload. -/
def proxy_socket_send_request_internal (sched : List SockEv)
    (data : List Nat) (fds : List Nat) : Option Dgram :=
  if data.length = 0 then none
  else if PROXY_SOCKET_MAX_FD_COUNT < fds.length then none
  else
    match proxy_socket_sendmsg data.length sched with
    | none => none
    | some _ => some ⟨data, fds⟩

/-- render_socket.c `render_socket_send_reply_internal`, non-APPLE
variant; identical C body (modulo names). -/
def render_socket_send_reply_internal (sched : List SockEv)
    (data : List Nat) (fds : List Nat) : Option Dgram :=
  proxy_socket_send_request_internal sched data fds

/-- proxy_socket.c `proxy_socket_send_request_internal`, APPLE variant:
write the 8-byte header `{ (uint32_t)size, (uint32_t)fd_count }` with
exact-size semantics, then send the payload with the partial-send loop,
the ancillary block going with the first successful send. On success
the function returns the wire bytes that went out (header then payload)
and the transcript of underlying payload sends. -/
def proxy_socket_send_request_internal_stream (sched : List SockEv)
    (data : List Nat) (fds : List Nat) : Option (List Nat × List SendCall) :=
  if data.length = 0 then none
  else
    match proxy_socket_write_all sched 8 with
    | none => none
    | some sched2 =>
      if PROXY_SOCKET_MAX_FD_COUNT < fds.length then none
      else
        match proxy_socket_sendmsg_stream (fds.length != 0) sched2 data.length false with
        | none => none
        | some (calls, _) =>
          some (stream_msg_header.encode
              ⟨data.length % 4294967296, fds.length % 4294967296⟩ ++ data, calls)

/-- render_socket.c `render_socket_send_reply_internal`, APPLE variant;
identical C body (modulo names). -/
def render_socket_send_reply_internal_stream (sched : List SockEv)
    (data : List Nat) (fds : List Nat) : Option (List Nat × List SendCall) :=
  proxy_socket_send_request_internal_stream sched data fds

/-- Close-on-exec marks placed by a pair factory on the two descriptors
of a freshly created socket pair (`out_fds[0]` stays in the creating
process, `out_fds[1]` is the one handed across). -/
structure SockPairFlags where
  cloexec0 : Bool
  cloexec1 : Bool
deriving DecidableEq

/-- proxy_socket.c `proxy_socket_pair`: on APPLE, `SOCK_STREAM` pair
with `set_cloexec(out_fds[0])` only (out_fds[1] crosses the fork+exec
to the render server child and must stay inheritable); on non-APPLE, a
plain `SOCK_SEQPACKET` pair with no close-on-exec marks at all.
`pairOk` is whether the `socketpair` call itself succeeded. -/
def proxy_socket_pair (apple : Bool) (pairOk : Bool) : Option SockPairFlags :=
  if pairOk then some (if apple then ⟨true, false⟩ else ⟨false, false⟩) else none

/-- render_socket.c `render_socket_pair`: on APPLE, `SOCK_STREAM` pair
with `set_cloexec` on both descriptors; on non-APPLE,
`SOCK_SEQPACKET | SOCK_CLOEXEC`, i.e. both descriptors marked. -/
def render_socket_pair (apple : Bool) (pairOk : Bool) : Option SockPairFlags :=
  if pairOk then some (if apple then ⟨true, true⟩ else ⟨true, true⟩) else none

/-- proxy_socket.c `proxy_socket_is_seqpacket`: `getsockopt(SO_TYPE)`
result is `queryResult` (`none` = the query failed). On failure: log
and return false. On APPLE the probe accepts `SOCK_STREAM` as well as
`SOCK_SEQPACKET`; otherwise only `SOCK_SEQPACKET`. Returns
(result, logged). -/
def proxy_socket_is_seqpacket (apple : Bool) (queryResult : Option Nat) : Bool × Bool :=
  match queryResult with
  | none => (false, true)
  | some t =>
    if apple then (t == SOCK_STREAM || t == SOCK_SEQPACKET, false)
    else (t == SOCK_SEQPACKET, false)

/-- render_socket.c `render_socket_is_seqpacket`: same probe, but a
failed query returns false without logging. -/
def render_socket_is_seqpacket (apple : Bool) (queryResult : Option Nat) : Bool × Bool :=
  match queryResult with
  | none => (false, false)
  | some t =>
    if apple then (t == SOCK_STREAM || t == SOCK_SEQPACKET, false)
    else (t == SOCK_SEQPACKET, false)

/-- proxy_socket.c `struct proxy_socket`: the endpoint owns exactly one
socket descriptor and has no other mutable field. -/
structure proxy_socket where
  fd : Nat
deriving DecidableEq

/-- render_socket.c `struct render_socket`. -/
structure render_socket where
  fd : Nat
deriving DecidableEq

/-- proxy_socket.c `proxy_socket_fini`: closes the owned descriptor
(result: the list of descriptors the call closes). -/
def proxy_socket_fini (s : proxy_socket) : List Nat := [s.fd]

/-- render_socket.c `render_socket_fini`. -/
def render_socket_fini (s : render_socket) : List Nat := [s.fd]

/-- proxy_socket.c `proxy_socket_is_connected`: zero-timeout poll,
retried on `EINTR`/`EAGAIN`; timeout (poll returned 0) means connected;
a pending `POLLERR | POLLHUP | POLLNVAL` (bitmask 0x38 = 56) means
disconnected. The probe closes nothing and never blocks. -/
def proxy_socket_is_connected : List PollEv → Option Bool
  | [] => none
  | .eintr :: evs => proxy_socket_is_connected evs
  | .err :: _ => some false
  | .timeout :: _ => some true
  | .revents r :: _ => some (decide (r &&& 56 = 0))

/-- Descriptors delivered by one datagram-schedule event. -/
def DgEv.evFds : DgEv → List Nat
  | .dgram _ fds _ => fds
  | _ => []

/-- All descriptors a datagram schedule can deliver. -/
def dgSchedFds (sched : List DgEv) : List Nat := (sched.map DgEv.evFds).flatten

/-- Descriptors delivered by one stream-schedule event. -/
def SockEv.evFds : SockEv → List Nat
  | .chunk _ fds _ => fds
  | _ => []

/-- All descriptors a stream schedule can deliver. -/
def sockSchedFds (sched : List SockEv) : List Nat := (sched.map SockEv.evFds).flatten

/-- Well-behaved stream event: a successful, untruncated transfer of at
least one byte (what the kernel produces on a healthy stream). -/
def goodEv : SockEv → Bool
  | .chunk k _ trunc => decide (0 < k) && !trunc
  | _ => false

/-- Schedule of well-behaved stream events. -/
def goodSched (sched : List SockEv) : Bool := sched.all goodEv

/-! Helper lemmas. -/

theorem le32_u32le (x : Nat) (hx : x < 4294967296) : le32 (u32le x) = x := by
  unfold le32 u32le
  simp only [List.getD_cons_zero, List.getD_cons_succ]
  omega

theorem u32le_length (x : Nat) : (u32le x).length = 4 := by
  simp [u32le]

theorem stream_msg_header_encode_length (h : stream_msg_header) :
    (stream_msg_header.encode h).length = 8 := by
  simp [stream_msg_header.encode, u32le]

theorem stream_msg_header_decode_encode (h : stream_msg_header)
    (h1 : h.size < 4294967296) (h2 : h.fd_count < 4294967296) :
    stream_msg_header.decode (stream_msg_header.encode h) = h := by
  obtain ⟨a, b⟩ := h
  simp only [stream_msg_header.decode, stream_msg_header.encode]
  rw [List.take_left' (u32le_length a), List.drop_left' (u32le_length a),
    le32_u32le a h1, le32_u32le b h2]

theorem proxy_socket_read_all_exact (sched : List SockEv) :
    ∀ (s : List Nat) (n : Nat),
      goodSched sched = true → n ≤ s.length → n ≤ sched.length →
      ∃ m, m ≤ n ∧
        proxy_socket_read_all sched s n = some (s.take n, s.drop n, sched.drop m) := by
  induction sched with
  | nil =>
    intro s n _ _ hn
    have hz : n = 0 := by simpa using hn
    subst hz
    exact ⟨0, le_refl 0, by simp [proxy_socket_read_all]⟩
  | cons ev evs ih =>
    intro s n hg hs hn
    match n with
    | 0 => exact ⟨0, Nat.zero_le 0, by simp [proxy_socket_read_all]⟩
    | n + 1 =>
      match ev with
      | .eintr => simp [goodSched, goodEv] at hg
      | .err => simp [goodSched, goodEv] at hg
      | .chunk k fds trunc =>
        have hgood : ((0 < k ∧ trunc = false) ∧ goodSched evs = true) := by
          simpa [goodSched, goodEv, List.all_cons] using hg
        obtain ⟨⟨hk, htr⟩, hge⟩ := hgood
        subst htr
        have hslen : n + 1 ≤ s.length := hs
        have hd1 : 1 ≤ min k (min (n + 1) s.length) := by omega
        have hdle : min k (min (n + 1) s.length) ≤ n + 1 := by omega
        set d := min k (min (n + 1) s.length) with hd
        obtain ⟨m, hm, heq⟩ := ih (s.drop d) (n + 1 - d) hge
          (by rw [List.length_drop]; omega)
          (by simp at hn; omega)
        refine ⟨m + 1, by omega, ?_⟩
        simp only [proxy_socket_read_all]
        rw [← hd]
        rw [if_neg (by omega : ¬(d = 0))]
        rw [heq]
        dsimp only
        have h1 : s.take d ++ (s.drop d).take (n + 1 - d) = s.take (n + 1) := by
          rw [← List.take_add]
          congr 1
          omega
        have h2 : (s.drop d).drop (n + 1 - d) = s.drop (n + 1) := by
          rw [List.drop_drop]
          congr 1
          omega
        rw [h1, h2]
        rfl

theorem proxy_socket_stream_recv_loop_exact (maxFd : Nat) (copyFds : Bool) (size : Nat) :
    ∀ (fuel : Nat) (sched : List SockEv) (s : List Nat) (total : Nat) (acc outFds : List Nat),
      goodSched sched = true →
      total ≤ size →
      size - total ≤ s.length →
      size - total ≤ sched.length →
      sched.length < fuel →
      proxy_socket_stream_recv_loop maxFd copyFds size fuel sched s total acc false outFds =
        some (.ok size (acc ++ s.take (size - total)) (if copyFds then outFds else []) []) := by
  intro fuel
  induction fuel with
  | zero => intro sched _ _ _ _ _ _ _ _ hf; omega
  | succ fuel ih =>
    intro sched s total acc outFds hg htot hs hn hf
    by_cases hlt : total < size
    · match sched with
      | [] =>
        exfalso
        simp only [List.length_nil] at hn
        omega
      | ev :: evs =>
        match ev with
        | .eintr => simp [goodSched, goodEv] at hg
        | .err => simp [goodSched, goodEv] at hg
        | .chunk k fds trunc =>
          have hgood : ((0 < k ∧ trunc = false) ∧ goodSched evs = true) := by
            simpa [goodSched, goodEv, List.all_cons] using hg
          obtain ⟨⟨hk, htr⟩, hge⟩ := hgood
          subst htr
          have hrem : 1 ≤ size - total := by omega
          have hslen : size - total ≤ s.length := hs
          have hd1 : 1 ≤ min k (min (size - total) s.length) := by omega
          have hdle : min k (min (size - total) s.length) ≤ size - total := by omega
          set d := min k (min (size - total) s.length) with hd
          have hdlen : (s.take d).length = d := by
            rw [List.length_take]
            omega
          have hrec := ih evs (s.drop d) (total + d)
            (acc ++ s.take d) outFds hge
            (by omega)
            (by rw [List.length_drop]; omega)
            (by simp only [List.length_cons] at hn; omega)
            (by simp only [List.length_cons] at hf; omega)
          have h1 : (acc ++ s.take d) ++ (s.drop d).take (size - (total + d)) =
              acc ++ s.take (size - total) := by
            rw [List.append_assoc, ← List.take_add]
            congr 2
            omega
          rw [h1] at hrec
          simp only [proxy_socket_stream_recv_loop, if_pos hlt,
            proxy_socket_recvmsg_stream]
          rw [← hd]
          rw [if_neg (by omega : ¬(d = 0))]
          simp only [Bool.false_eq_true, if_false]
          rw [hdlen]
          exact hrec
    · have heq2 : total = size := by omega
      subst heq2
      simp only [proxy_socket_stream_recv_loop, if_neg hlt]
      rw [Nat.sub_self]
      simp

theorem proxy_socket_sendmsg_stream_one (control : Bool) (m : Nat) (fdsSent : Bool) :
    proxy_socket_sendmsg_stream control [.chunk (m + 1) [] false] (m + 1) fdsSent =
      some ([⟨m + 1, !fdsSent && control⟩], []) := by
  simp [proxy_socket_sendmsg_stream]

theorem proxy_socket_sendmsg_stream_after (sched : List SockEv) :
    ∀ (n : Nat) (calls : List SendCall) (rest : List SockEv),
      proxy_socket_sendmsg_stream true sched n true = some (calls, rest) →
      ∀ c ∈ calls, c.withFds = false := by
  induction sched with
  | nil =>
    intro n calls rest h
    match n with
    | 0 =>
      simp only [proxy_socket_sendmsg_stream, Option.some.injEq, Prod.mk.injEq] at h
      obtain ⟨h1, _⟩ := h
      subst h1
      intro c hc
      simp at hc
    | n + 1 => simp [proxy_socket_sendmsg_stream] at h
  | cons ev evs ih =>
    intro n calls rest h
    match n with
    | 0 =>
      simp only [proxy_socket_sendmsg_stream, Option.some.injEq, Prod.mk.injEq] at h
      obtain ⟨h1, _⟩ := h
      subst h1
      intro c hc
      simp at hc
    | n + 1 =>
      match ev with
      | .eintr =>
        exact ih (n + 1) calls rest (by simpa [proxy_socket_sendmsg_stream] using h)
      | .err => simp [proxy_socket_sendmsg_stream] at h
      | .chunk k fds trunc =>
        simp only [proxy_socket_sendmsg_stream, Bool.not_true, Bool.false_and,
          Bool.or_self] at h
        rcases hrec : proxy_socket_sendmsg_stream true evs (n + 1 - min k (n + 1)) true with
          _ | ⟨calls2, rest2⟩
        · rw [hrec] at h
          simp at h
        · rw [hrec] at h
          simp only [Option.some.injEq, Prod.mk.injEq] at h
          obtain ⟨h1, _⟩ := h
          subst h1
          intro c hc
          rcases List.mem_cons.mp hc with hc | hc
          · subst hc
            rfl
          · exact ih (n + 1 - min k (n + 1)) calls2 rest2 hrec c hc

theorem proxy_socket_sendmsg_stream_first (sched : List SockEv) :
    ∀ (n : Nat) (calls : List SendCall) (rest : List SockEv),
      proxy_socket_sendmsg_stream true sched (n + 1) false = some (calls, rest) →
      calls.map SendCall.withFds = true :: List.replicate (calls.length - 1) false := by
  induction sched with
  | nil => intro n calls rest h; simp [proxy_socket_sendmsg_stream] at h
  | cons ev evs ih =>
    intro n calls rest h
    match ev with
    | .eintr =>
      exact ih n calls rest (by simpa [proxy_socket_sendmsg_stream] using h)
    | .err => simp [proxy_socket_sendmsg_stream] at h
    | .chunk k fds trunc =>
      simp only [proxy_socket_sendmsg_stream, Bool.not_false, Bool.true_and,
        Bool.false_or] at h
      rcases hrec : proxy_socket_sendmsg_stream true evs (n + 1 - min k (n + 1)) true with
        _ | ⟨calls2, rest2⟩
      · rw [hrec] at h
        simp at h
      · rw [hrec] at h
        simp only [Option.some.injEq, Prod.mk.injEq] at h
        obtain ⟨h1, _⟩ := h
        subst h1
        have hall := proxy_socket_sendmsg_stream_after evs (n + 1 - min k (n + 1))
          calls2 rest2 hrec
        simp only [List.map_cons, List.length_cons, Nat.add_sub_cancel]
        congr 1
        rw [List.eq_replicate_iff]
        refine ⟨by simp, ?_⟩
        intro b hb
        obtain ⟨c, hc, hcb⟩ := List.mem_map.mp hb
        rw [← hcb]
        exact hall c hc

theorem dgSchedFds_cons (ev : DgEv) (evs : List DgEv) :
    dgSchedFds (ev :: evs) = ev.evFds ++ dgSchedFds evs := by
  simp [dgSchedFds]

theorem sockSchedFds_cons (ev : SockEv) (evs : List SockEv) :
    sockSchedFds (ev :: evs) = ev.evFds ++ sockSchedFds evs := by
  simp [sockSchedFds]

theorem proxy_socket_recvmsg_closed_sub (control : Bool) (iovLen : Nat) (sched : List DgEv) :
    ∀ (r : RMsg) (rest : List DgEv),
      proxy_socket_recvmsg control iovLen sched = some (r, rest) →
      ∀ x ∈ r.closed, x ∈ dgSchedFds sched := by
  induction sched with
  | nil => intro r rest h; simp [proxy_socket_recvmsg] at h
  | cons ev evs ih =>
    intro r rest h x hx
    match ev with
    | .eintr =>
      have hm := ih r rest (by simpa [proxy_socket_recvmsg] using h) x hx
      rw [dgSchedFds_cons]
      exact List.mem_append_right _ hm
    | .err =>
      simp only [proxy_socket_recvmsg, Option.some.injEq, Prod.mk.injEq] at h
      obtain ⟨h1, _⟩ := h
      subst h1
      simp [RMsg.closed] at hx
    | .dgram data fds trunc =>
      rw [dgSchedFds_cons]
      have hsub : ∀ y ∈ (if control then fds else []), y ∈ DgEv.evFds (.dgram data fds trunc) := by
        intro y hy
        rcases control with _ | _
        · simp at hy
        · simpa [DgEv.evFds] using hy
      simp only [proxy_socket_recvmsg] at h
      split at h
      · simp only [Option.some.injEq, Prod.mk.injEq] at h
        obtain ⟨h1, _⟩ := h
        subst h1
        simp [RMsg.closed] at hx
      · split at h
        · simp only [Option.some.injEq, Prod.mk.injEq] at h
          obtain ⟨h1, _⟩ := h
          subst h1
          exact List.mem_append_left _ (hsub x hx)
        · split at h
          · simp only [Option.some.injEq, Prod.mk.injEq] at h
            obtain ⟨h1, _⟩ := h
            subst h1
            exact List.mem_append_left _ (hsub x hx)
          · simp only [Option.some.injEq, Prod.mk.injEq] at h
            obtain ⟨h1, _⟩ := h
            subst h1
            simp [RMsg.closed] at hx

theorem render_socket_recvmsg_closed_sub (control : Bool) (sched : List DgEv) :
    ∀ (r : RMsg) (rest : List DgEv),
      render_socket_recvmsg control sched = some (r, rest) →
      ∀ x ∈ r.closed, x ∈ dgSchedFds sched := by
  induction sched with
  | nil => intro r rest h; simp [render_socket_recvmsg] at h
  | cons ev evs ih =>
    intro r rest h x hx
    match ev with
    | .eintr =>
      have hm := ih r rest (by simpa [render_socket_recvmsg] using h) x hx
      rw [dgSchedFds_cons]
      exact List.mem_append_right _ hm
    | .err =>
      simp only [render_socket_recvmsg, Option.some.injEq, Prod.mk.injEq] at h
      obtain ⟨h1, _⟩ := h
      subst h1
      simp [RMsg.closed] at hx
    | .dgram data fds trunc =>
      rw [dgSchedFds_cons]
      have hsub : ∀ y ∈ (if control then fds else []), y ∈ DgEv.evFds (.dgram data fds trunc) := by
        intro y hy
        rcases control with _ | _
        · simp at hy
        · simpa [DgEv.evFds] using hy
      simp only [render_socket_recvmsg] at h
      split at h
      · simp only [Option.some.injEq, Prod.mk.injEq] at h
        obtain ⟨h1, _⟩ := h
        subst h1
        simp [RMsg.closed] at hx
      · split at h
        · simp only [Option.some.injEq, Prod.mk.injEq] at h
          obtain ⟨h1, _⟩ := h
          subst h1
          exact List.mem_append_left _ (hsub x hx)
        · simp only [Option.some.injEq, Prod.mk.injEq] at h
          obtain ⟨h1, _⟩ := h
          subst h1
          simp [RMsg.closed] at hx

theorem proxy_socket_recvmsg_stream_sub (control : Bool) (sched : List SockEv) :
    ∀ (s : List Nat) (n : Nat) (r : RMsg) (s2 : List Nat) (rest : List SockEv),
      proxy_socket_recvmsg_stream control sched s n = some (r, s2, rest) →
      (∀ x ∈ r.closed, x ∈ sockSchedFds sched) ∧
      (∀ x ∈ sockSchedFds rest, x ∈ sockSchedFds sched) := by
  induction sched with
  | nil => intro s n r s2 rest h; simp [proxy_socket_recvmsg_stream] at h
  | cons ev evs ih =>
    intro s n r s2 rest h
    match ev with
    | .eintr =>
      have hih := ih s n r s2 rest (by simpa [proxy_socket_recvmsg_stream] using h)
      rw [sockSchedFds_cons]
      exact ⟨fun x hx => List.mem_append_right _ (hih.1 x hx),
        fun x hx => List.mem_append_right _ (hih.2 x hx)⟩
    | .err =>
      simp only [proxy_socket_recvmsg_stream, Option.some.injEq, Prod.mk.injEq] at h
      obtain ⟨h1, _, h3⟩ := h
      subst h1
      subst h3
      rw [sockSchedFds_cons]
      exact ⟨fun x hx => by simp [RMsg.closed] at hx,
        fun x hx => List.mem_append_right _ hx⟩
    | .chunk k fds trunc =>
      rw [sockSchedFds_cons]
      have hsub : ∀ y ∈ (if control then fds else []), y ∈ SockEv.evFds (.chunk k fds trunc) := by
        intro y hy
        rcases control with _ | _
        · simp at hy
        · simpa [SockEv.evFds] using hy
      simp only [proxy_socket_recvmsg_stream] at h
      split at h
      · simp only [Option.some.injEq, Prod.mk.injEq] at h
        obtain ⟨h1, _, h3⟩ := h
        subst h1
        subst h3
        exact ⟨fun x hx => by simp [RMsg.closed] at hx,
          fun x hx => List.mem_append_right _ hx⟩
      · split at h
        · simp only [Option.some.injEq, Prod.mk.injEq] at h
          obtain ⟨h1, _, h3⟩ := h
          subst h1
          subst h3
          exact ⟨fun x hx => List.mem_append_left _ (hsub x hx),
            fun x hx => List.mem_append_right _ hx⟩
        · simp only [Option.some.injEq, Prod.mk.injEq] at h
          obtain ⟨h1, _, h3⟩ := h
          subst h1
          subst h3
          exact ⟨fun x hx => by simp [RMsg.closed] at hx,
            fun x hx => List.mem_append_right _ hx⟩

theorem proxy_socket_read_all_fds_sub :
    ∀ (sched : List SockEv) (s : List Nat) (n : Nat) (bs s2 : List Nat) (rest : List SockEv),
      proxy_socket_read_all sched s n = some (bs, s2, rest) →
      ∀ x ∈ sockSchedFds rest, x ∈ sockSchedFds sched := by
  intro sched
  induction sched with
  | nil =>
    intro s n bs s2 rest h
    match n with
    | 0 =>
      simp only [proxy_socket_read_all, Option.some.injEq, Prod.mk.injEq] at h
      obtain ⟨_, _, h3⟩ := h
      subst h3
      exact fun x hx => hx
    | n + 1 => simp [proxy_socket_read_all] at h
  | cons ev evs ih =>
    intro s n bs s2 rest h
    match n with
    | 0 =>
      simp only [proxy_socket_read_all, Option.some.injEq, Prod.mk.injEq] at h
      obtain ⟨_, _, h3⟩ := h
      subst h3
      exact fun x hx => hx
    | n + 1 =>
      match ev with
      | .eintr =>
        have hih := ih s (n + 1) bs s2 rest (by simpa [proxy_socket_read_all] using h)
        rw [sockSchedFds_cons]
        exact fun x hx => List.mem_append_right _ (hih x hx)
      | .err => simp [proxy_socket_read_all] at h
      | .chunk k fds trunc =>
        rw [sockSchedFds_cons]
        simp only [proxy_socket_read_all] at h
        split at h
        · simp at h
        · rcases hrec : proxy_socket_read_all evs
              (s.drop (min k (min (n + 1) s.length))) (n + 1 - min k (min (n + 1) s.length)) with
            _ | ⟨bs2, s3, rest3⟩
          · rw [hrec] at h
            simp at h
          · rw [hrec] at h
            simp only [Option.some.injEq, Prod.mk.injEq] at h
            obtain ⟨_, _, h3⟩ := h
            subst h3
            have hih := ih _ _ _ _ _ hrec
            exact fun x hx => List.mem_append_right _ (hih x hx)

theorem proxy_socket_stream_recv_loop_closed_sub (maxFd : Nat) (copyFds : Bool) (size : Nat) :
    ∀ (fuel : Nat) (sched : List SockEv) (s : List Nat) (total : Nat)
      (acc outFds : List Nat) (control : Bool) (res : RcvRes),
      proxy_socket_stream_recv_loop maxFd copyFds size fuel sched s total acc control outFds =
        some res →
      ∀ x ∈ res.closed, x ∈ sockSchedFds sched := by
  intro fuel
  induction fuel with
  | zero => intro sched s total acc outFds control res h; simp [proxy_socket_stream_recv_loop] at h
  | succ fuel ih =>
    intro sched s total acc outFds control res h
    simp only [proxy_socket_stream_recv_loop] at h
    split at h
    · rcases hrec : proxy_socket_recvmsg_stream control sched s (size - total) with
        _ | ⟨r, s2, sched2⟩
      · rw [hrec] at h
        simp at h
      · rw [hrec] at h
        have hsub := proxy_socket_recvmsg_stream_sub control sched s (size - total) r s2 sched2 hrec
        match r with
        | .fail c =>
          dsimp only at h
          simp only [Option.some.injEq] at h
          subst h
          exact fun x hx => hsub.1 x hx
        | .ok data fds =>
          dsimp only at h
          split at h
          · exact fun x hx => hsub.2 x (ih sched2 s2 (total + data.length) (acc ++ data)
              (fds.take maxFd) false res h x hx)
          · exact fun x hx => hsub.2 x (ih sched2 s2 (total + data.length) (acc ++ data)
              outFds control res h x hx)
    · simp only [Option.some.injEq] at h
      subst h
      intro x hx
      simp [RcvRes.closed] at hx

theorem proxy_socket_receive_reply_internal_closed_sub (sched : List DgEv)
    (size : Nat) (copyFds : Bool) (maxFd : Nat) (res : RcvRes)
    (h : proxy_socket_receive_reply_internal sched size copyFds maxFd = some res) :
    ∀ x ∈ res.closed, x ∈ dgSchedFds sched := by
  unfold proxy_socket_receive_reply_internal at h
  split at h
  · simp at h
  · split at h
    · simp at h
    · rcases hrec : proxy_socket_recvmsg (decide (maxFd ≠ 0)) size sched with _ | ⟨r, rest⟩
      · rw [hrec] at h
        simp at h
      · rw [hrec] at h
        have hsub := proxy_socket_recvmsg_closed_sub (decide (maxFd ≠ 0)) size sched r rest hrec
        match r with
        | .fail c =>
          dsimp only at h
          simp only [Option.some.injEq] at h
          subst h
          exact hsub
        | .ok data fds =>
          dsimp only at h
          split at h
          · split at h
            · simp at h
            · simp only [Option.some.injEq] at h
              subst h
              intro x hx
              simp [RcvRes.closed] at hx
          · simp only [Option.some.injEq] at h
            subst h
            intro x hx
            simp [RcvRes.closed] at hx

theorem render_socket_receive_request_internal_closed_sub (sched : List DgEv)
    (maxSize : Nat) (copyFds : Bool) (maxFd : Nat) (res : RcvRes)
    (h : render_socket_receive_request_internal sched maxSize copyFds maxFd = some res) :
    ∀ x ∈ res.closed, x ∈ dgSchedFds sched := by
  unfold render_socket_receive_request_internal at h
  split at h
  · simp at h
  · split at h
    · simp at h
    · rcases hrec : render_socket_recvmsg (decide (maxFd ≠ 0)) sched with _ | ⟨r, rest⟩
      · rw [hrec] at h
        simp at h
      · rw [hrec] at h
        have hsub := render_socket_recvmsg_closed_sub (decide (maxFd ≠ 0)) sched r rest hrec
        match r with
        | .fail c =>
          dsimp only at h
          simp only [Option.some.injEq] at h
          subst h
          exact hsub
        | .ok data fds =>
          dsimp only at h
          split at h
          · split at h
            · simp at h
            · simp only [Option.some.injEq] at h
              subst h
              intro x hx
              simp [RcvRes.closed] at hx
          · simp only [Option.some.injEq] at h
            subst h
            intro x hx
            simp [RcvRes.closed] at hx

theorem proxy_socket_receive_reply_internal_stream_closed_sub (fuel : Nat) (sched : List SockEv)
    (s : List Nat) (size : Nat) (copyFds : Bool) (maxFd : Nat) (res : RcvRes)
    (h : proxy_socket_receive_reply_internal_stream fuel sched s size copyFds maxFd = some res) :
    ∀ x ∈ res.closed, x ∈ sockSchedFds sched := by
  unfold proxy_socket_receive_reply_internal_stream at h
  split at h
  · simp at h
  · rcases hra : proxy_socket_read_all sched s 8 with _ | ⟨hb, s2, sched2⟩
    · rw [hra] at h
      simp at h
    · rw [hra] at h
      dsimp only at h
      have hfds := proxy_socket_read_all_fds_sub sched s 8 hb s2 sched2 hra
      split at h
      · simp only [Option.some.injEq] at h
        subst h
        intro x hx
        simp [RcvRes.closed] at hx
      · intro x hx
        exact hfds x (proxy_socket_stream_recv_loop_closed_sub maxFd copyFds size fuel
          sched2 s2 0 [] [] _ res h x hx)

theorem render_socket_receive_request_internal_stream_closed_sub (fuel : Nat) (sched : List SockEv)
    (s : List Nat) (maxSize : Nat) (copyFds : Bool) (maxFd : Nat) (res : RcvRes)
    (h : render_socket_receive_request_internal_stream fuel sched s maxSize copyFds maxFd = some res) :
    ∀ x ∈ res.closed, x ∈ sockSchedFds sched := by
  unfold render_socket_receive_request_internal_stream render_socket_read_all
    render_socket_stream_recv_loop at h
  split at h
  · simp at h
  · rcases hra : proxy_socket_read_all sched s 8 with _ | ⟨hb, s2, sched2⟩
    · rw [hra] at h
      simp at h
    · rw [hra] at h
      dsimp only at h
      have hfds := proxy_socket_read_all_fds_sub sched s 8 hb s2 sched2 hra
      split at h
      · simp only [Option.some.injEq] at h
        subst h
        intro x hx
        simp [RcvRes.closed] at hx
      · intro x hx
        exact hfds x (proxy_socket_stream_recv_loop_closed_sub maxFd copyFds
          (stream_msg_header.decode hb).size fuel sched2 s2 0 [] [] _ res h x hx)

/-! Spec-side notion used to state the capability-probe claim. -/

/-- Spec-side definition (from the spec's words): a socket type
natively preserves message boundaries exactly when it is the
sequenced-packet type. -/
def spec_preserves_boundaries (t : Nat) : Prop := t = SOCK_SEQPACKET

/-! Claim theorems. -/

/-- C2 (counterexample): in native-framing mode the render endpoint's
receive, asked for up to 4 bytes, accepts a 2-byte datagram and returns
success reporting size 2 — it does not fail on a byte count different
from the requested size, contradicting the claim as stated. -/
theorem C2_cex :
    render_socket_receive_request_internal [.dgram [1, 2] [] false] 4 false 0 =
      some (.ok 2 [1, 2] [] []) ∧ (2 : Nat) ≠ 4 := by
  constructor
  · rfl
  · decide

/-- C2 (amended): in native-framing mode, the proxy endpoint's recvmsg
fails on any nonzero byte count different from the requested message
size and closes every descriptor delivered with the mismatched message,
while the render endpoint's recvmsg accepts any nonzero untruncated
byte count and hands it to the caller. -/
theorem C2_native_size_mismatch (dsched : List DgEv) (n : Nat) (data fds : List Nat)
    (hdata : data ≠ []) (hmis : data.length ≠ n) :
    proxy_socket_recvmsg true n (.dgram data fds false :: dsched) = some (.fail fds, dsched) ∧
    render_socket_recvmsg true (.dgram data fds false :: dsched) = some (.ok data fds, dsched) := by
  constructor
  · simp [proxy_socket_recvmsg, List.length_eq_zero, hdata, hmis]
  · simp [render_socket_recvmsg, List.length_eq_zero, hdata]

/-- C2 (witness): a 1-byte datagram against a 4-byte request makes the
proxy recvmsg fail (closing the delivered descriptor 5) and the render
recvmsg succeed. -/
theorem C2_witness :
    proxy_socket_recvmsg true 4 [.dgram [1] [5] false] = some (.fail [5], []) ∧
    render_socket_recvmsg true [.dgram [1] [5] false] = some (.ok [1] [5], []) :=
  C2_native_size_mismatch [] 4 [1] [5] (by decide) (by decide)

/-- C3 (code evaluation): in stream-framing mode, with the caller asking
for at most 1 descriptor and the kernel delivering 2 untruncated
descriptors (81 and 82, which fit because the control buffer is sized
by CMSG_SPACE alignment padding), both receive paths succeed, copy out
only descriptor 81, and close nothing: descriptor 82 is dropped without
being closed — the leak the claim says cannot happen. -/
theorem C3_excess_fd_leak :
    proxy_socket_receive_reply_internal_stream 3
        [.chunk 8 [] false, .chunk 4 [81, 82] false]
        [4, 0, 0, 0, 2, 0, 0, 0, 10, 11, 12, 13] 4 true 1 =
      some (.ok 4 [10, 11, 12, 13] [81] []) ∧
    render_socket_receive_request_internal_stream 3
        [.chunk 8 [] false, .chunk 4 [81, 82] false]
        [4, 0, 0, 0, 2, 0, 0, 0, 10, 11, 12, 13] 4 true 1 =
      some (.ok 4 [10, 11, 12, 13] [81] []) ∧
    (82 : Nat) ∉ [81] ∧ (82 : Nat) ∉ ([] : List Nat) := by
  refine ⟨by decide, by decide, by decide, by decide⟩

/-- C4 (counterexample): the non-APPLE proxy pair factory marks neither
descriptor close-on-exec (the kept descriptor out_fds[0] stays
inheritable), and the render pair factory marks the crossing descriptor
out_fds[1] close-on-exec — both contradict the claim as stated. -/
theorem C4_cex :
    proxy_socket_pair false true = some ⟨false, false⟩ ∧
    render_socket_pair false true = some ⟨true, true⟩ := by
  constructor <;> rfl

/-- C4 (amended): the proxy pair factory never marks the descriptor
destined to cross the spawn boundary close-on-exec, and marks the
staying descriptor exactly in its stream-mode (APPLE) branch; the
render pair factory (whose pairs cross via descriptor passing, not
exec) marks both descriptors close-on-exec in every branch. -/
theorem C4_pair_cloexec (apple pairOk : Bool) (pr : SockPairFlags) :
    (proxy_socket_pair apple pairOk = some pr → pr.cloexec1 = false ∧ pr.cloexec0 = apple) ∧
    (render_socket_pair apple pairOk = some pr → pr.cloexec0 = true ∧ pr.cloexec1 = true) := by
  constructor <;> intro h <;> cases apple <;> cases pairOk <;>
    simp [proxy_socket_pair, render_socket_pair] at h <;> subst h <;> simp

/-- C4 (witness): the APPLE proxy pair marks exactly the staying
descriptor close-on-exec. -/
theorem C4_witness :
    proxy_socket_pair true true = some ⟨true, false⟩ ∧
    ((⟨true, false⟩ : SockPairFlags).cloexec1 = false ∧
      (⟨true, false⟩ : SockPairFlags).cloexec0 = true) :=
  ⟨rfl, (C4_pair_cloexec true true ⟨true, false⟩).1 rfl⟩

/-- C5 (counterexample): on the platform lacking a native-framing
primitive (APPLE) the probe returns true for the plain stream type,
which does not natively preserve message boundaries — the claim's
"always returns false" and "true only if boundaries are preserved" both
fail; moreover the render probe returns false on a failed type query
without logging. -/
theorem C5_cex :
    (proxy_socket_is_seqpacket true (some SOCK_STREAM)).1 = true ∧
    ¬ spec_preserves_boundaries SOCK_STREAM ∧
    render_socket_is_seqpacket true none = (false, false) := by
  refine ⟨rfl, ?_, rfl⟩
  simp [spec_preserves_boundaries, SOCK_STREAM, SOCK_SEQPACKET]

/-- C5 (amended): in native-platform mode the probe returns true exactly
for the boundary-preserving sequenced-packet type; in the mode for the
platform lacking that primitive it returns true exactly for the stream
and sequenced-packet types (the stream type being the framed-emulation
carrier); a failed type query yields false without crashing — with a
log on the proxy side and silently on the render side — and on a
successful query both probes agree. -/
theorem C5_probe (t : Nat) (apple : Bool) :
    ((proxy_socket_is_seqpacket false (some t)).1 = true ↔ spec_preserves_boundaries t) ∧
    ((proxy_socket_is_seqpacket true (some t)).1 = true ↔
      (t = SOCK_STREAM ∨ t = SOCK_SEQPACKET)) ∧
    proxy_socket_is_seqpacket apple none = (false, true) ∧
    render_socket_is_seqpacket apple none = (false, false) ∧
    render_socket_is_seqpacket apple (some t) = proxy_socket_is_seqpacket apple (some t) := by
  refine ⟨?_, ?_, rfl, rfl, ?_⟩
  · simp [proxy_socket_is_seqpacket, spec_preserves_boundaries]
  · simp [proxy_socket_is_seqpacket]
  · cases apple <;> rfl

/-- C6: a receive whose underlying recvmsg reports data or control-data
truncation fails, and every descriptor delivered with the truncated
message is closed before the failure is returned — for the proxy native
recvmsg, the render native recvmsg, and the stream recvmsg. -/
theorem C6_truncation_closes_fds (dsched : List DgEv) (sched : List SockEv)
    (s : List Nat) (n iovLen k : Nat) (data fds : List Nat)
    (hdata : data ≠ []) (hk : 0 < min k (min n s.length)) :
    proxy_socket_recvmsg true iovLen (.dgram data fds true :: dsched) =
      some (.fail fds, dsched) ∧
    render_socket_recvmsg true (.dgram data fds true :: dsched) =
      some (.fail fds, dsched) ∧
    proxy_socket_recvmsg_stream true (.chunk k fds true :: sched) s n =
      some (.fail fds, s.drop (min k (min n s.length)), sched) := by
  refine ⟨?_, ?_, ?_⟩
  · simp [proxy_socket_recvmsg, List.length_eq_zero, hdata]
  · simp [render_socket_recvmsg, List.length_eq_zero, hdata]
  · simp only [proxy_socket_recvmsg_stream]
    rw [if_neg (by omega)]
    simp

/-- C6 (witness): a truncated 1-byte message carrying descriptors 5 and
6 makes all three recvmsg paths fail and close exactly those
descriptors. -/
theorem C6_witness :
    proxy_socket_recvmsg true 4 [.dgram [1] [5, 6] true] = some (.fail [5, 6], []) ∧
    render_socket_recvmsg true [.dgram [1] [5, 6] true] = some (.fail [5, 6], []) ∧
    proxy_socket_recvmsg_stream true [.chunk 1 [5, 6] true] [9] 1 =
      some (.fail [5, 6], [], []) :=
  C6_truncation_closes_fds [] [] [9] 1 4 1 [1] [5, 6] (by decide) (by decide)

/-- C7: in stream-framing mode, whenever a send succeeds with a
descriptor block present, the block is attached to exactly the first
successful underlying send call and to none of the later ones (the
one-shot flag semantics), on both the proxy and the render send path. -/
theorem C7_fds_on_first_send_only (sched : List SockEv) (n : Nat)
    (calls : List SendCall) (rest : List SockEv)
    (h : proxy_socket_sendmsg_stream true sched (n + 1) false = some (calls, rest)) :
    calls.map SendCall.withFds = true :: List.replicate (calls.length - 1) false ∧
    render_socket_sendmsg_stream true sched (n + 1) false = some (calls, rest) :=
  ⟨proxy_socket_sendmsg_stream_first sched n calls rest h, h⟩

/-- C7 (witness): a 4-byte payload split into two underlying sends
attaches the descriptor block to the first send only. -/
theorem C7_witness :
    ([⟨2, true⟩, ⟨2, false⟩] : List SendCall).map SendCall.withFds =
      true :: List.replicate (([⟨2, true⟩, ⟨2, false⟩] : List SendCall).length - 1) false ∧
    render_socket_sendmsg_stream true [.chunk 2 [] false, .chunk 5 [] false] 4 false =
      some ([⟨2, true⟩, ⟨2, false⟩], []) :=
  C7_fds_on_first_send_only [.chunk 2 [] false, .chunk 5 [] false] 3
    [⟨2, true⟩, ⟨2, false⟩] [] (by decide)

/-- C8: a signal-interrupt or would-block syscall result is invisible to
the caller — every engine loop (exact read, exact write, native recvmsg
on both sides, stream recvmsg, native and stream sendmsg) is unchanged
by dropping a leading interrupt event — while a read or recvmsg that
returns 0 bytes before the requested count (peer closed) is an
immediate hard failure that is not retried. -/
theorem C8_transient_retry_eof_fatal (sched : List SockEv) (dsched : List DgEv)
    (s : List Nat) (n k iovLen : Nat) (fds : List Nat) (t control fdsSent : Bool) :
    proxy_socket_read_all (.eintr :: sched) s (n + 1) = proxy_socket_read_all sched s (n + 1) ∧
    render_socket_read_all (.eintr :: sched) s (n + 1) = render_socket_read_all sched s (n + 1) ∧
    proxy_socket_write_all (.eintr :: sched) (n + 1) = proxy_socket_write_all sched (n + 1) ∧
    proxy_socket_recvmsg control iovLen (.eintr :: dsched) =
      proxy_socket_recvmsg control iovLen dsched ∧
    render_socket_recvmsg control (.eintr :: dsched) = render_socket_recvmsg control dsched ∧
    proxy_socket_recvmsg_stream control (.eintr :: sched) s n =
      proxy_socket_recvmsg_stream control sched s n ∧
    proxy_socket_sendmsg n (.eintr :: sched) = proxy_socket_sendmsg n sched ∧
    proxy_socket_sendmsg_stream control (.eintr :: sched) (n + 1) fdsSent =
      proxy_socket_sendmsg_stream control sched (n + 1) fdsSent ∧
    proxy_socket_read_all (.chunk k fds t :: sched) [] (n + 1) = none ∧
    proxy_socket_recvmsg control iovLen (.dgram [] fds t :: dsched) = some (.fail [], dsched) ∧
    render_socket_recvmsg control (.dgram [] fds t :: dsched) = some (.fail [], dsched) ∧
    proxy_socket_recvmsg_stream control (.chunk k fds t :: sched) [] (n + 1) =
      some (.fail [], [], sched) := by
  refine ⟨rfl, rfl, rfl, rfl, rfl, rfl, rfl, rfl, ?_, rfl, rfl, ?_⟩
  · simp [proxy_socket_read_all]
  · simp [proxy_socket_recvmsg_stream]

/-- C9: a send with a 0-byte payload trips the `assert(data && size)`
contract precondition and is rejected without transmitting anything, on
every endpoint and in both wire modes. -/
theorem C9_zero_size_send (sched wsched : List SockEv) (fds : List Nat) :
    proxy_socket_send_request_internal sched [] fds = none ∧
    proxy_socket_send_request_internal_stream wsched [] fds = none ∧
    render_socket_send_reply_internal sched [] fds = none ∧
    render_socket_send_reply_internal_stream wsched [] fds = none :=
  ⟨rfl, rfl, rfl, rfl⟩

/-- C10: no receive operation ever closes a descriptor other than ones
delivered by the peer (so never the endpoint's own descriptor, which is
never among them), and the explicit fini operation closes exactly the
endpoint's owned descriptor, once. -/
theorem C10_only_fini_closes (fd : Nat) (sock : proxy_socket) (rsock : render_socket)
    (dsched : List DgEv) (sched : List SockEv) (s : List Nat)
    (fuel size maxSize maxFd : Nat) (copyFds : Bool) (r1 r2 r3 r4 : RcvRes)
    (hfresh1 : fd ∉ dgSchedFds dsched) (hfresh2 : fd ∉ sockSchedFds sched) :
    proxy_socket_fini sock = [sock.fd] ∧
    render_socket_fini rsock = [rsock.fd] ∧
    (proxy_socket_receive_reply_internal dsched size copyFds maxFd = some r1 →
      fd ∉ r1.closed) ∧
    (render_socket_receive_request_internal dsched maxSize copyFds maxFd = some r2 →
      fd ∉ r2.closed) ∧
    (proxy_socket_receive_reply_internal_stream fuel sched s size copyFds maxFd = some r3 →
      fd ∉ r3.closed) ∧
    (render_socket_receive_request_internal_stream fuel sched s maxSize copyFds maxFd = some r4 →
      fd ∉ r4.closed) := by
  refine ⟨rfl, rfl, ?_, ?_, ?_, ?_⟩ <;> intro h hx
  · exact hfresh1 (proxy_socket_receive_reply_internal_closed_sub dsched size copyFds maxFd r1 h fd hx)
  · exact hfresh1 (render_socket_receive_request_internal_closed_sub dsched maxSize copyFds maxFd r2 h fd hx)
  · exact hfresh2 (proxy_socket_receive_reply_internal_stream_closed_sub fuel sched s size copyFds maxFd r3 h fd hx)
  · exact hfresh2 (render_socket_receive_request_internal_stream_closed_sub fuel sched s maxSize copyFds maxFd r4 h fd hx)

/-- C10 (witness): with the endpoint descriptor 3 absent from the
delivered descriptors (here: descriptor 9 arrives truncated), the
receive paths never close descriptor 3, and fini closes exactly the
owned descriptor. -/
theorem C10_witness :
    proxy_socket_fini ⟨5⟩ = [(⟨5⟩ : proxy_socket).fd] ∧
    render_socket_fini ⟨6⟩ = [(⟨6⟩ : render_socket).fd] ∧
    (proxy_socket_receive_reply_internal [.dgram [1] [9] true] 1 false 0 =
        some (.fail [9]) → (3 : Nat) ∉ (RcvRes.fail [9]).closed) ∧
    (render_socket_receive_request_internal [.dgram [1] [9] true] 1 false 0 =
        some (.fail [9]) → (3 : Nat) ∉ (RcvRes.fail [9]).closed) ∧
    (proxy_socket_receive_reply_internal_stream 2 [.chunk 1 [9] true] [7] 1 false 0 =
        some (.fail [9]) → (3 : Nat) ∉ (RcvRes.fail [9]).closed) ∧
    (render_socket_receive_request_internal_stream 2 [.chunk 1 [9] true] [7] 1 false 0 =
        some (.fail [9]) → (3 : Nat) ∉ (RcvRes.fail [9]).closed) :=
  C10_only_fini_closes 3 ⟨5⟩ ⟨6⟩ [.dgram [1] [9] true] [.chunk 1 [9] true] [7]
    2 1 1 0 false (.fail [9]) (.fail [9]) (.fail [9]) (.fail [9])
    (by decide) (by decide)

theorem proxy_socket_sendmsg_stream_single (control : Bool) (n : Nat) (fdsSent : Bool)
    (hn : n ≠ 0) :
    proxy_socket_sendmsg_stream control [.chunk n [] false] n fdsSent =
      some ([⟨n, !fdsSent && control⟩], []) := by
  cases n with
  | zero => omega
  | succ m => exact proxy_socket_sendmsg_stream_one control m fdsSent

/-- C1: for every payload of size n with 0 < n (and n within the render
receiver's buffer capacity and the u32 header range), a send on one
endpoint followed by a receive on the peer succeeds and delivers a
byte-identical payload of size exactly n, in both wire modes: (a)
native, proxy request to render; (b) native, render reply to proxy
(which requests the exact expected size); (c) stream, proxy request to
render, where the engine loops underlying receives over an arbitrary
well-behaved chunking schedule until the header-declared size is
accumulated; (d) stream, render reply to proxy. No partial or short
payload is ever handed to the caller. -/
theorem C1_send_receive_roundtrip (payload : List Nat) (maxSize fuel : Nat)
    (sched : List SockEv)
    (h0 : 0 < payload.length) (hcap : payload.length ≤ maxSize)
    (h32 : payload.length < 4294967296)
    (hg : goodSched sched = true)
    (hlen : 8 + payload.length ≤ sched.length)
    (hfuel : sched.length < fuel) :
    (proxy_socket_send_request_internal [.chunk payload.length [] false] payload [] =
        some ⟨payload, []⟩ ∧
      render_socket_receive_request_internal [.dgram payload [] false] maxSize false 0 =
        some (.ok payload.length payload [] [])) ∧
    (render_socket_send_reply_internal [.chunk payload.length [] false] payload [] =
        some ⟨payload, []⟩ ∧
      proxy_socket_receive_reply_internal [.dgram payload [] false] payload.length false 0 =
        some (.ok payload.length payload [] [])) ∧
    (proxy_socket_send_request_internal_stream
          [.chunk 8 [] false, .chunk payload.length [] false] payload [] =
        some (stream_msg_header.encode ⟨payload.length, 0⟩ ++ payload,
          [⟨payload.length, false⟩]) ∧
      render_socket_receive_request_internal_stream fuel sched
          (stream_msg_header.encode ⟨payload.length, 0⟩ ++ payload) maxSize false 0 =
        some (.ok payload.length payload [] [])) ∧
    (render_socket_send_reply_internal_stream
          [.chunk 8 [] false, .chunk payload.length [] false] payload [] =
        some (stream_msg_header.encode ⟨payload.length, 0⟩ ++ payload,
          [⟨payload.length, false⟩]) ∧
      proxy_socket_receive_reply_internal_stream fuel sched
          (stream_msg_header.encode ⟨payload.length, 0⟩ ++ payload) payload.length false 0 =
        some (.ok payload.length payload [] [])) := by
  have hne : payload.length ≠ 0 := by omega
  have hms : maxSize ≠ 0 := by omega
  set hdrB := stream_msg_header.encode ⟨payload.length, 0⟩ with hhdrB
  set wire := hdrB ++ payload with hwire
  have hBlen : hdrB.length = 8 := stream_msg_header_encode_length _
  have hwlen : wire.length = 8 + payload.length := by
    rw [hwire, List.length_append, hBlen]
  have htake : wire.take 8 = hdrB := by
    rw [hwire, List.take_left' hBlen]
  have hdrop : wire.drop 8 = payload := by
    rw [hwire, List.drop_left' hBlen]
  have hdec : stream_msg_header.decode hdrB = ⟨payload.length, 0⟩ := by
    rw [hhdrB]
    exact stream_msg_header_decode_encode _ h32 (by norm_num)
  obtain ⟨mh, hmh, hra⟩ := proxy_socket_read_all_exact sched wire 8 hg
    (by omega) (by omega)
  rw [htake, hdrop] at hra
  have hgd : goodSched (sched.drop mh) = true := by
    rw [goodSched, List.all_eq_true]
    intro ev hev
    exact List.all_eq_true.mp hg ev (List.drop_subset _ _ hev)
  have hloop := proxy_socket_stream_recv_loop_exact 0 false payload.length fuel
    (sched.drop mh) payload 0 [] [] hgd (by omega)
    (by omega)
    (by rw [List.length_drop]; omega)
    (by rw [List.length_drop]; omega)
  simp only [Nat.sub_zero, List.take_length, List.nil_append, Bool.false_eq_true,
    if_false] at hloop
  have ha1 : proxy_socket_send_request_internal [.chunk payload.length [] false] payload [] =
      some ⟨payload, []⟩ := by
    simp [proxy_socket_send_request_internal, proxy_socket_sendmsg, hne,
      PROXY_SOCKET_MAX_FD_COUNT]
  have ha2 : render_socket_receive_request_internal [.dgram payload [] false] maxSize false 0 =
      some (.ok payload.length payload [] []) := by
    simp [render_socket_receive_request_internal, render_socket_recvmsg, hne, hms]
  have hb2 : proxy_socket_receive_reply_internal [.dgram payload [] false]
      payload.length false 0 = some (.ok payload.length payload [] []) := by
    simp [proxy_socket_receive_reply_internal, proxy_socket_recvmsg, hne]
  have hc1 : proxy_socket_send_request_internal_stream
      [.chunk 8 [] false, .chunk payload.length [] false] payload [] =
      some (hdrB ++ payload, [⟨payload.length, false⟩]) := by
    simp only [proxy_socket_send_request_internal_stream]
    rw [if_neg hne]
    have hw : proxy_socket_write_all [.chunk 8 [] false, .chunk payload.length [] false] 8 =
        some [.chunk payload.length [] false] := by
      simp [proxy_socket_write_all]
    rw [hw]
    dsimp only
    rw [if_neg (by norm_num [PROXY_SOCKET_MAX_FD_COUNT])]
    rw [proxy_socket_sendmsg_stream_single _ _ _ hne]
    dsimp only
    rw [hhdrB]
    simp [Nat.mod_eq_of_lt h32]
  have hc2 : render_socket_receive_request_internal_stream fuel sched wire maxSize false 0 =
      some (.ok payload.length payload [] []) := by
    simp only [render_socket_receive_request_internal_stream, render_socket_read_all,
      render_socket_stream_recv_loop]
    rw [if_neg hms]
    rw [hra]
    dsimp only
    rw [hdec]
    dsimp only
    rw [if_neg (by omega)]
    simp only [bne_self_eq_false, Bool.false_and, Bool.and_false]
    exact hloop
  have hd2 : proxy_socket_receive_reply_internal_stream fuel sched wire
      payload.length false 0 = some (.ok payload.length payload [] []) := by
    simp only [proxy_socket_receive_reply_internal_stream]
    rw [if_neg hne]
    rw [hra]
    dsimp only
    rw [hdec]
    dsimp only
    rw [if_neg (by simp)]
    simp only [bne_self_eq_false, Bool.false_and, Bool.and_false]
    exact hloop
  exact ⟨⟨ha1, ha2⟩, ⟨ha1, hb2⟩, ⟨hc1, hc2⟩, ⟨hc1, hd2⟩⟩

/-- C1 (witness): concrete 1-byte round trip in both wire modes, the
stream receive running over a nine-event single-byte chunking
schedule. -/
theorem C1_witness :
    (proxy_socket_send_request_internal [.chunk 1 [] false] [7] [] = some ⟨[7], []⟩ ∧
      render_socket_receive_request_internal [.dgram [7] [] false] 1 false 0 =
        some (.ok 1 [7] [] [])) ∧
    (render_socket_send_reply_internal [.chunk 1 [] false] [7] [] = some ⟨[7], []⟩ ∧
      proxy_socket_receive_reply_internal [.dgram [7] [] false] 1 false 0 =
        some (.ok 1 [7] [] [])) ∧
    (proxy_socket_send_request_internal_stream [.chunk 8 [] false, .chunk 1 [] false] [7] [] =
        some (stream_msg_header.encode ⟨1, 0⟩ ++ [7], [⟨1, false⟩]) ∧
      render_socket_receive_request_internal_stream 10 (List.replicate 9 (.chunk 1 [] false))
          (stream_msg_header.encode ⟨1, 0⟩ ++ [7]) 1 false 0 =
        some (.ok 1 [7] [] [])) ∧
    (render_socket_send_reply_internal_stream [.chunk 8 [] false, .chunk 1 [] false] [7] [] =
        some (stream_msg_header.encode ⟨1, 0⟩ ++ [7], [⟨1, false⟩]) ∧
      proxy_socket_receive_reply_internal_stream 10 (List.replicate 9 (.chunk 1 [] false))
          (stream_msg_header.encode ⟨1, 0⟩ ++ [7]) 1 false 0 =
        some (.ok 1 [7] [] [])) :=
  C1_send_receive_roundtrip [7] 1 10 (List.replicate 9 (.chunk 1 [] false))
    (by decide) (by decide) (by decide) (by decide) (by decide) (by decide)
